import Mathlib

/-!
Shallow embedding of `src/new_dashboard.py` (viva-tool): an HTML call-listing
parser, a cached audio downloader, transcription/summarization adapters and
the main per-record processing loop that writes a CSV report.

External collaborators (BeautifulSoup tag trees, the HTTP session, the
filesystem, the Whisper and summarizer engines, the CSV file) are modelled
explicitly: the document is a list of table rows, the filesystem is a list
of (path, content) pairs, network and engines are function parameters, and
fallible Python code returns `Except` (an `Except.error` models a raised
exception).
-/

namespace VivaTool

/-! ## HTML document model

A `tr.recording` row as BeautifulSoup exposes it to the code: an optional
`data-id` attribute and the list of its `td` cells.  A cell carries its
class list and its children, which are either bare text nodes or `span`
elements.  `Tag.__bool__` is `True` for every tag, so the code's
`if some_td` tests are just non-`None` tests. -/

structure SpanEl where
  classes : List String
  text : String
  deriving Repr, DecidableEq

inductive TdChild where
  | str (s : String)
  | spanEl (sp : SpanEl)
  deriving Repr, DecidableEq

structure Td where
  classes : List String
  children : List TdChild
  deriving Repr, DecidableEq

structure Tr where
  dataId : Option String
  tds : List Td
  deriving Repr, DecidableEq

/-- BeautifulSoup `.text` on a `td`: concatenation of all contained strings. -/
def Td.text (td : Td) : String :=
  td.children.foldl (fun acc c => acc ++ (match c with
    | .str s => s
    | .spanEl sp => sp.text)) ""

/-- BeautifulSoup `row.find('td', class_=cls)`: first `td` carrying class `cls`. -/
def findTdByClass (r : Tr) (cls : String) : Option Td :=
  r.tds.find? (fun td => td.classes.contains cls)

/-- BeautifulSoup `td.find('span', class_=cls)`: first contained `span` carrying class `cls`. -/
def Td.findSpan (td : Td) (cls : String) : Option SpanEl :=
  (td.children.filterMap (fun c => match c with
    | .spanEl sp => some sp
    | .str _ => none)).find? (fun sp => sp.classes.contains cls)

/-! ## Python string helpers -/

/-- An ASCII whitespace character as Python `str.strip()` removes them. -/
def isPySpace (c : Char) : Bool :=
  c = ' ' || c = '\t' || c = '\n' || c = '\r' || c = '\x0b' || c = '\x0c'

/-- Python `str.strip()`: drop whitespace at both ends. -/
def pyStrip (s : String) : String :=
  String.mk (((s.data.dropWhile isPySpace).reverse.dropWhile isPySpace).reverse)

/-- Python `str.replace(" ", "")`: delete every space character. -/
def stripSpaces (s : String) : String :=
  String.mk (s.data.filter (fun c => c ≠ ' '))

/-! ## parse_html_calls (src/new_dashboard.py lines 24-55) -/

structure Call where
  data_id : String
  date_time : String
  from_number : String
  to_number : String
  user_tag : String
  deriving Repr, DecidableEq

/-- The extension-to-label mapping of lines 39-44. -/
def userTagOf (rec_number : String) : String :=
  if rec_number = "*200" then "Vikki"
  else if rec_number = "*201" then "Assistant"
  else "UnknownUser"

/-- Python `some_td.find('span', class_='phonenumber').text.strip() if some_td else ""`:
`""` when the cell is absent, the stripped span text when the span is found,
and a raised `AttributeError` when the cell exists but the span does not
(`.find` returned `None` and `None.text` raises). -/
def extractSpanText (otd : Option Td) : Except String String :=
  match otd with
  | none => .ok ""
  | some td =>
    match td.findSpan "phonenumber" with
    | some sp => .ok (pyStrip sp.text)
    | none => .error "AttributeError"

/-- One iteration of the `for row in soup.select(..)` body, in the order the
statements run: `Except.error` models an exception escaping the loop body,
`ok none` a row skipped for a missing/empty `data-id`, `ok (some call)` an
appended record. -/
def parseRow (r : Tr) : Except String (Option Call) :=
  let full_date := match findTdByClass r "date" with
    | some td => pyStrip td.text
    | none => ""
  match extractSpanText (findTdByClass r "rec") with
  | .error e => .error e
  | .ok rec_number =>
    match extractSpanText (findTdByClass r "from") with
    | .error e => .error e
    | .ok from_raw =>
      match extractSpanText (r.tds.get? 4) with
      | .error e => .error e
      | .ok to_raw =>
        let from_number := stripSpaces from_raw
        let to_number := stripSpaces to_raw
        let user_tag := userTagOf rec_number
        match r.dataId with
        | some s =>
          if s = "" then .ok none
          else .ok (some ⟨s, full_date, from_number, to_number, user_tag⟩)
        | none => .ok none

/-- `parse_html_calls`: run `parseRow` over the selected rows in document
order, accumulating the appended records; a raised exception aborts the
whole parse. -/
def parse_html_calls : List Tr → Except String (List Call)
  | [] => .ok []
  | r :: rest =>
    match parseRow r with
    | .error e => .error e
    | .ok c =>
      match parse_html_calls rest with
      | .error e => .error e
      | .ok cs => .ok (match c with
        | some call => call :: cs
        | none => cs)

/-! ## sanitize_filename and the cache path (lines 21-22, 58-59) -/

/-- Membership in the regex class `[<>:"/\\|?* ]` of line 22. -/
def isUnsafeChar (c : Char) : Bool :=
  c = '<' || c = '>' || c = ':' || c = '"' || c = '/' || c = '\\' ||
  c = '|' || c = '?' || c = '*' || c = ' '

/-- `re.sub(r'[<>:"/\\|?* ]', '_', s)`: each unsafe character becomes an underscore. -/
def sanitize_filename (s : String) : String :=
  String.mk (s.data.map (fun c => if isUnsafeChar c then '_' else c))

/-- The f-string of line 58: only the date component is sanitized. -/
def filenameFor (call : Call) : String :=
  sanitize_filename call.date_time ++ "_" ++ call.from_number ++ "_" ++
    call.to_number ++ "_" ++ call.user_tag ++ "_" ++ call.data_id ++ ".mp3"

/-- `os.path.join("temp_recordings", fn)` of line 59. -/
def pathFor (call : Call) : String :=
  "temp_recordings/" ++ filenameFor call

/-- The download URL of line 62, parameterized solely by the record id. -/
def urlFor (call : Call) : String :=
  "https://controlpanel.voipfone.co.uk/api/srv?callRecordingsGetFile/" ++
    call.data_id ++ ".mp3"

/-! ## download_audio (lines 57-68)

The filesystem is a list of (path, content) pairs; content is the list of
bytes written so far.  The network is a function from the request URL to
either a failure (connection error or the `raise_for_status` of a non-2xx
response) or the streamed chunk list.  `writeOk i` says whether writing the
i-th chunk succeeds; a failing write raises out of the `with open` block,
leaving on disk the file `open(filepath, "wb")` created with the chunks
already written. -/

abbrev FS := List (String × List Nat)

/-- Python `os.path.exists`. -/
def fsHas (fs : FS) (p : String) : Bool := fs.any (fun e => e.1 = p)

/-- Create or truncate-and-rewrite the file at `p` with content `c`. -/
def fsSet (fs : FS) (p : String) (c : List Nat) : FS :=
  (p, c) :: fs.filter (fun e => e.1 ≠ p)

/-- The `for chunk in resp.iter_content(..): f.write(chunk)` loop: returns the
bytes on disk when the loop ends and whether it completed without raising. -/
def writeChunks (writeOk : Nat → Bool) : Nat → List (List Nat) → List Nat × Bool
  | _, [] => ([], true)
  | i, c :: rest =>
    if writeOk i then
      let r := writeChunks writeOk (i + 1) rest
      (c ++ r.1, r.2)
    else ([], false)

/-- Outcome of one `download_audio` call: the returned path or the raised
exception, the filesystem afterwards, and how many network requests were made. -/
structure DlOutcome where
  result : Except String String
  fs : FS
  netCalls : Nat
  deriving Repr

/-- `download_audio`: return the cache path at once when the file exists,
otherwise issue one GET and stream the body to disk. -/
def download_audio (net : String → Except String (List (List Nat)))
    (writeOk : Nat → Bool) (fs : FS) (call : Call) : DlOutcome :=
  let filepath := pathFor call
  if fsHas fs filepath then ⟨.ok filepath, fs, 0⟩
  else
    match net (urlFor call) with
    | .error e => ⟨.error e, fs, 1⟩
    | .ok chunks =>
      let w := writeChunks writeOk 0 chunks
      let fs' := fsSet fs filepath w.1
      if w.2 then ⟨.ok filepath, fs', 1⟩ else ⟨.error "write failed", fs', 1⟩

/-! ## summarize_text (lines 79-89)

The engine is a function from the (truncated) input to either the summary
text or a raised exception; the second component of the result counts how
many times the engine was invoked. -/

def summarize_text (eng : String → Except String String) (text : String) :
    String × Nat :=
  if text = "" then ("No transcript available", 0)
  else
    let t := text.take 1000
    match eng t with
    | .ok s => (s, 1)
    | .error _ => ("Error in summarization", 1)

/-! ## transcribe_audio (lines 70-77)

The try/except returns the stripped text on success and `""` after reporting
the engine exception, so the adapter is total. -/

def transcribe_audio (model : String → Except String String) (path : String) :
    String :=
  match model path with
  | .ok text => pyStrip text
  | .error _ => ""

/-! ## The CSV report file (lines 112-117, 128-135)

A CSV file is its list of rows, each row its list of fields in the fixed
column order Date (+time), From, To, Summary. -/

abbrev Csv := List (List String)

def headerRow : List String := ["Date (+time)", "From", "To", "Summary"]

/-- Lines 113-117: write a fresh file holding only the header when no file
exists at `csv_path`; leave an existing file untouched. -/
def initCsvFile (existing : Option Csv) : Csv :=
  match existing with
  | none => [headerRow]
  | some c => c

/-- Line 128-135: one `writer.writerow` in append mode. -/
def appendCsvRow (c : Csv) (r : List String) : Csv := c ++ [r]

/-- The data row written for `call` with summary `summary` (lines 130-135). -/
def rowFor (call : Call) (summary : String) : List String :=
  [call.date_time, call.from_number, call.to_number, summary]

/-! ## The main processing loop (lines 121-138)

One pass over the parsed calls.  Per call: `download_audio`, then
`transcribe_audio`, then `summarize_text`, then the CSV append, all inside a
`try` whose `except` reports the error and continues; the progress update
runs after the handler for every call.  The trace records, besides the CSV
rows and the reported errors, every argument passed to the transcriber and
to the summarizer and every progress update `i + 1`, so that what each
record reached is visible in the result. -/

structure PipelineResult where
  rows : List (List String)
  errors : List String
  transcribeCalls : List String
  summarizeCalls : List String
  progressUpdates : List Nat
  fs : FS
  netCalls : Nat
  deriving Repr, DecidableEq

def emptyResult (fs : FS) : PipelineResult := ⟨[], [], [], [], [], fs, 0⟩

/-- The loop body plus the recursion over the remaining calls; `i` is the
`enumerate` index. -/
def runCallsAux (net : String → Except String (List (List Nat)))
    (writeOk : Nat → Bool) (model : String → Except String String)
    (eng : String → Except String String) :
    Nat → FS → List Call → PipelineResult
  | _, fs, [] => emptyResult fs
  | i, fs, call :: rest =>
    let dl := download_audio net writeOk fs call
    match dl.result with
    | .ok mp3_path =>
      let transcript := transcribe_audio model mp3_path
      let summary := (summarize_text eng transcript).1
      let r := runCallsAux net writeOk model eng (i + 1) dl.fs rest
      ⟨rowFor call summary :: r.rows, r.errors,
        mp3_path :: r.transcribeCalls, transcript :: r.summarizeCalls,
        (i + 1) :: r.progressUpdates, r.fs, dl.netCalls + r.netCalls⟩
    | .error e =>
      let r := runCallsAux net writeOk model eng (i + 1) dl.fs rest
      ⟨r.rows, e :: r.errors, r.transcribeCalls, r.summarizeCalls,
        (i + 1) :: r.progressUpdates, r.fs, dl.netCalls + r.netCalls⟩

/-- The whole processing loop over a batch, from `enumerate` index 0. -/
def runCalls (net : String → Except String (List (List Nat)))
    (writeOk : Nat → Bool) (model : String → Except String String)
    (eng : String → Except String String) (fs : FS) (calls : List Call) :
    PipelineResult :=
  runCallsAux net writeOk model eng 0 fs calls

/-- The report file left behind by a run: header initialization (lines
112-117) followed by one appended row per successfully processed call. -/
def runReport (existing : Option Csv) (rows : List (List String)) : Csv :=
  rows.foldl appendCsvRow (initCsvFile existing)

/-- The successive states of the report file during a run: the state before
the first data row is written, then the state after each append. -/
def reportStates (existing : Option Csv) (rows : List (List String)) :
    List Csv :=
  (initCsvFile existing) :: (List.range rows.length).map
    (fun k => runReport existing (rows.take (k + 1)))

/-! ## Helper predicates -/

/-- Whether a fallible computation returned normally. -/
def isOkB {α β : Type} : Except α β → Bool
  | .ok _ => true
  | .error _ => false

/-- A string free of the path-unsafe characters of line 22. -/
def pathSafe (s : String) : Bool := s.data.all (fun c => !isUnsafeChar c)

lemma pathSafe_append (a b : String) :
    pathSafe (a ++ b) = (pathSafe a && pathSafe b) := by
  simp [pathSafe, String.data_append, List.all_append]

lemma pathSafe_sanitize (s : String) : pathSafe (sanitize_filename s) = true := by
  simp only [pathSafe, sanitize_filename, List.all_eq_true]
  intro c hc
  obtain ⟨a, _, rfl⟩ := List.mem_map.mp hc
  by_cases h : isUnsafeChar a = true
  · simp [h]
    decide
  · simp [Bool.not_eq_true] at h
    simp [h]

/-! ## Claims -/

/-- Claim C7: the extension-to-label mapping sends `*200` to `Vikki`, `*201`
to `Assistant`, and every other value, the empty string included, to
`UnknownUser`. -/
theorem claim7_extension_mapping :
    userTagOf "*200" = "Vikki" ∧ userTagOf "*201" = "Assistant" ∧
    ∀ s, s ≠ "*200" → s ≠ "*201" → userTagOf s = "UnknownUser" := by
  refine ⟨rfl, rfl, ?_⟩
  intro s h1 h2
  simp [userTagOf, h1, h2]

/-- Witness for claim C7 at the extension `*199`. -/
theorem claim7_witness : userTagOf "*199" = "UnknownUser" :=
  claim7_extension_mapping.2.2 "*199" (by decide) (by decide)

/-- Counterexample to claim C5 as stated: on empty input `summarize_text`
returns `No transcript available` with a capital N, not the claimed string
`no transcript available`. -/
theorem claim5_counterexample :
    (summarize_text (fun s => .ok s) "").1 ≠ "no transcript available" := by
  decide

/-- Claim C5, amended: on empty input `summarize_text` returns the fixed
sentinel `No transcript available` and invokes the engine zero times,
whatever the engine is. -/
theorem claim5_amended_empty_sentinel :
    ∀ eng, summarize_text eng "" = ("No transcript available", 0) :=
  fun _ => rfl

/-- Counterexample to claim C4 as stated: the record id is interpolated into
the filename unsanitized, so an id containing a slash puts a slash in the
cache filename. -/
theorem claim4_counterexample :
    pathSafe (filenameFor
      ⟨"rec/42", "2024-01-02 10:00", "0712345678", "0798765432", "Vikki"⟩)
      = false := by
  decide

/-- Claim C4, amended: only the timestamp component is passed through
`sanitize_filename`, whose output never contains a path-unsafe character or
a space; the from-number, to-number, owner-tag and id components are
interpolated as-is, so the whole filename is free of unsafe characters only
when those four components already are. -/
theorem claim4_amended_sanitization :
    (∀ s, pathSafe (sanitize_filename s) = true) ∧
    (∀ call : Call, pathSafe call.from_number = true →
      pathSafe call.to_number = true → pathSafe call.user_tag = true →
      pathSafe call.data_id = true → pathSafe (filenameFor call) = true) := by
  refine ⟨pathSafe_sanitize, ?_⟩
  intro call h1 h2 h3 h4
  simp [filenameFor, pathSafe_append, pathSafe_sanitize, h1, h2, h3, h4]
  decide

/-- Witness for claim C4 at a record with safe components. -/
theorem claim4_witness :
    pathSafe (filenameFor
      ⟨"42", "2024-01-02 10:00", "0712345678", "0798765432", "Vikki"⟩)
      = true :=
  claim4_amended_sanitization.2
    ⟨"42", "2024-01-02 10:00", "0712345678", "0798765432", "Vikki"⟩
    (by decide) (by decide) (by decide) (by decide)

lemma download_audio_hit (net : String → Except String (List (List Nat)))
    (writeOk : Nat → Bool) (fs : FS) (call : Call)
    (h : fsHas fs (pathFor call) = true) :
    download_audio net writeOk fs call = ⟨.ok (pathFor call), fs, 0⟩ := by
  simp [download_audio, h]

lemma fsHas_fsSet (fs : FS) (p : String) (c : List Nat) :
    fsHas (fsSet fs p c) p = true := by
  simp [fsHas, fsSet]

/-- Claim C3: a fetch whose cache file already exists returns the path at
once, with the filesystem untouched and zero network requests; and after a
first successful fetch, which makes exactly one network request, fetching
the same record again returns the same path with zero network requests. -/
theorem claim3_fetch_idempotent :
    (∀ net writeOk fs call, fsHas fs (pathFor call) = true →
      download_audio net writeOk fs call = ⟨.ok (pathFor call), fs, 0⟩) ∧
    (∀ net writeOk fs call, fsHas fs (pathFor call) = false →
      ∀ p, (download_audio net writeOk fs call).result = .ok p →
        (download_audio net writeOk fs call).netCalls = 1 ∧
        download_audio net writeOk (download_audio net writeOk fs call).fs
          call = ⟨.ok p, (download_audio net writeOk fs call).fs, 0⟩) := by
  refine ⟨download_audio_hit, ?_⟩
  intro net writeOk fs call h p hp
  cases hnet : net (urlFor call) with
  | error e => simp [download_audio, h, hnet] at hp
  | ok chunks =>
    by_cases hw : (writeChunks writeOk 0 chunks).2 = true
    · have hd : download_audio net writeOk fs call =
          ⟨.ok (pathFor call),
           fsSet fs (pathFor call) (writeChunks writeOk 0 chunks).1, 1⟩ := by
        simp [download_audio, h, hnet, hw]
      rw [hd] at hp ⊢
      cases hp
      exact ⟨rfl, download_audio_hit _ _ _ _ (fsHas_fsSet _ _ _)⟩
    · have hd : download_audio net writeOk fs call =
          ⟨.error "write failed",
           fsSet fs (pathFor call) (writeChunks writeOk 0 chunks).1, 1⟩ := by
        simp [download_audio, h, hnet, hw]
      rw [hd] at hp
      cases hp

def netOkA : String → Except String (List (List Nat)) := fun _ => .ok [[1, 2, 3]]

def callA : Call := ⟨"a1", "2024-01-02 10:00", "0712345678", "0798765432", "Vikki"⟩

/-- Witness for claim C3: a concrete record fetched twice from an empty
cache with an always-succeeding network and disk. -/
theorem claim3_witness :
    (download_audio netOkA (fun _ => true) [] callA).netCalls = 1 ∧
    download_audio netOkA (fun _ => true)
        (download_audio netOkA (fun _ => true) [] callA).fs callA =
      ⟨.ok (pathFor callA), (download_audio netOkA (fun _ => true) [] callA).fs,
        0⟩ :=
  claim3_fetch_idempotent.2 netOkA (fun _ => true) [] callA rfl
    (pathFor callA) rfl

/-- Claim C9: when every chunk write fails partway (the write loop ends
unsuccessfully), the download raises but the partially written file stays at
the record's cache path; and a fetch of a record whose path holds a file of
arbitrary content — partial or complete, no integrity check — returns that
path as a cache hit with zero network requests. -/
theorem claim9_partial_download :
    (∀ net writeOk fs call chunks,
      fsHas fs (pathFor call) = false →
      net (urlFor call) = .ok chunks →
      (writeChunks writeOk 0 chunks).2 = false →
      download_audio net writeOk fs call =
        ⟨.error "write failed",
         fsSet fs (pathFor call) (writeChunks writeOk 0 chunks).1, 1⟩ ∧
      fsHas (download_audio net writeOk fs call).fs (pathFor call) = true) ∧
    (∀ net writeOk fs call content,
      download_audio net writeOk (fsSet fs (pathFor call) content) call =
        ⟨.ok (pathFor call), fsSet fs (pathFor call) content, 0⟩) := by
  constructor
  · intro net writeOk fs call chunks h hnet hw
    have hd : download_audio net writeOk fs call =
        ⟨.error "write failed",
         fsSet fs (pathFor call) (writeChunks writeOk 0 chunks).1, 1⟩ := by
      simp [download_audio, h, hnet, hw]
    exact ⟨hd, by rw [hd]; exact fsHas_fsSet _ _ _⟩
  · intro net writeOk fs call content
    exact download_audio_hit _ _ _ _ (fsHas_fsSet _ _ _)

def badWrite : Nat → Bool := fun _ => false

def callB : Call := ⟨"b7", "2024-02-03 09:30", "0711111111", "0722222222", "Assistant"⟩

/-- Witness for claim C9: a concrete download whose first chunk write fails,
leaving an empty partial file that the next fetch treats as a cache hit. -/
theorem claim9_witness :
    download_audio netOkA badWrite [] callB =
      ⟨.error "write failed",
       fsSet [] (pathFor callB) (writeChunks badWrite 0 [[1, 2, 3]]).1, 1⟩ ∧
    fsHas (download_audio netOkA badWrite [] callB).fs (pathFor callB) =
      true :=
  claim9_partial_download.1 netOkA badWrite [] callB [[1, 2, 3]] rfl rfl rfl

/-! ## Parser claims -/

/-- A cell lookup that the code can dereference safely: either the cell is
absent (the code substitutes the empty string) or it contains the
phone-number sub-element. -/
def tdSpanOk (otd : Option Td) : Bool :=
  match otd with
  | none => true
  | some td => (td.findSpan "phonenumber").isSome

/-- All three span dereferences of a row are safe. -/
def rowSpansOk (r : Tr) : Bool :=
  tdSpanOk (findTdByClass r "rec") && tdSpanOk (findTdByClass r "from") &&
    tdSpanOk (r.tds.get? 4)

/-- Specification-side field extraction, following the spec's words: locate
the expected sub-element, use the empty string when it is missing. -/
def specSpanText (otd : Option Td) : String :=
  match otd.bind (fun td => td.findSpan "phonenumber") with
  | some sp => pyStrip sp.text
  | none => ""

/-- Specification-side record of a row, following the spec's words: skip
a row without a (non-empty) identifier, take the trimmed date text, the
whitespace-stripped from/to numbers, and the mapped owner tag. -/
def specRecordOf (r : Tr) : Option Call :=
  match r.dataId with
  | none => none
  | some s =>
    if s = "" then none
    else some ⟨s,
      (match findTdByClass r "date" with
        | some td => pyStrip td.text
        | none => ""),
      stripSpaces (specSpanText (findTdByClass r "from")),
      stripSpaces (specSpanText (r.tds.get? 4)),
      userTagOf (specSpanText (findTdByClass r "rec"))⟩

lemma extractSpanText_eq_spec (otd : Option Td) (h : tdSpanOk otd = true) :
    extractSpanText otd = .ok (specSpanText otd) := by
  cases otd with
  | none => rfl
  | some td =>
    cases hs : td.findSpan "phonenumber" with
    | none => simp [tdSpanOk, hs] at h
    | some sp => simp [extractSpanText, specSpanText, hs]

lemma parseRow_eq_spec (r : Tr) (h : rowSpansOk r = true) :
    parseRow r = .ok (specRecordOf r) := by
  simp only [rowSpansOk, Bool.and_eq_true] at h
  obtain ⟨⟨h1, h2⟩, h3⟩ := h
  rw [parseRow, extractSpanText_eq_spec _ h1, extractSpanText_eq_spec _ h2,
    extractSpanText_eq_spec _ h3]
  unfold specRecordOf
  cases r.dataId with
  | none => rfl
  | some s =>
    by_cases hs : s = "" <;> simp [hs]

lemma parse_html_calls_eq_spec :
    ∀ rows : List Tr, (∀ r ∈ rows, rowSpansOk r = true) →
      parse_html_calls rows = .ok (rows.filterMap specRecordOf) := by
  intro rows
  induction rows with
  | nil => intro _; rfl
  | cons r rest ih =>
    intro h
    have hr : rowSpansOk r = true := h r (by simp)
    have hrest := ih (fun x hx => h x (by simp [hx]))
    rw [parse_html_calls, parseRow_eq_spec r hr, hrest, List.filterMap_cons]
    cases specRecordOf r <;> simp

/-- Counterexample to claim C2 as stated: a row whose `rec` cell exists but
holds no `phonenumber` span makes the parse raise an `AttributeError`
(`rec_td.find('span', class_='phonenumber')` is `None` and `.text` on it
raises), instead of yielding an empty string for the field. -/
theorem claim2_counterexample :
    parse_html_calls [⟨some "id9",
      [⟨["date"], [TdChild.str "2024-01-01"]⟩,
       ⟨["rec"], [TdChild.str "x"]⟩]⟩] = .error "AttributeError" := rfl

/-- Any record that a row's iteration appended carries the empty string in
each field whose cell was structurally missing, independently per cell: a
missing date cell gives an empty date, a missing rec cell feeds the empty
string into the owner-tag mapping, a missing from cell gives an empty
from-number, a missing fifth cell gives an empty to-number. -/
lemma parseRow_fields (r : Tr) (c : Call)
    (hc : parseRow r = .ok (some c)) :
    (findTdByClass r "date" = none → c.date_time = "") ∧
    (findTdByClass r "rec" = none → c.user_tag = userTagOf "") ∧
    (findTdByClass r "from" = none → c.from_number = "") ∧
    (r.tds.get? 4 = none → c.to_number = "") := by
  simp only [parseRow] at hc
  split at hc
  · simp at hc
  · rename_i recn hrec
    split at hc
    · simp at hc
    · rename_i fromn hfrom
      split at hc
      · simp at hc
      · rename_i ton hto
        split at hc
        · rename_i s hsid
          by_cases hse : s = ""
          · rw [if_pos hse] at hc
            simp at hc
          · rw [if_neg hse] at hc
            simp only [Except.ok.injEq, Option.some.injEq] at hc
            subst hc
            refine ⟨?_, ?_, ?_, ?_⟩
            · intro hnone
              simp [hnone]
            · intro hnone
              rw [hnone] at hrec
              simp only [extractSpanText, Except.ok.injEq] at hrec
              simp [← hrec]
            · intro hnone
              rw [hnone] at hfrom
              simp only [extractSpanText, Except.ok.injEq] at hfrom
              simp [← hfrom]
              rfl
            · intro hnone
              rw [hnone] at hto
              simp only [extractSpanText, Except.ok.injEq] at hto
              simp [← hto]
              rfl
        · simp at hc

/-- Claim C2, amended: parsing never raises on a document in which every
present `rec`/`from`/fifth cell contains its phone-number sub-element; in
any appended record, each structurally missing cell independently yields an
empty string for its field (a missing rec cell feeds the empty string into
the tag mapping) rather than aborting the record; and the
extension-to-label mapping is total, yielding one of the three labels for
every extension value.  A present cell without the phone-number sub-element,
however, makes the parse raise. -/
theorem claim2_amended_parse_tolerance :
    (∀ rows : List Tr, (∀ r ∈ rows, rowSpansOk r = true) →
      isOkB (parse_html_calls rows) = true) ∧
    (∀ (r : Tr) (c : Call), parseRow r = .ok (some c) →
      (findTdByClass r "date" = none → c.date_time = "") ∧
      (findTdByClass r "rec" = none → c.user_tag = userTagOf "") ∧
      (findTdByClass r "from" = none → c.from_number = "") ∧
      (r.tds.get? 4 = none → c.to_number = "")) ∧
    (∀ s, userTagOf s = "Vikki" ∨ userTagOf s = "Assistant" ∨
      userTagOf s = "UnknownUser") := by
  refine ⟨?_, parseRow_fields, ?_⟩
  · intro rows h
    rw [parse_html_calls_eq_spec rows h]
    rfl
  · intro s
    by_cases h1 : s = "*200"
    · simp [userTagOf, h1]
    · by_cases h2 : s = "*201" <;> simp [userTagOf, h1, h2]

/-- A fully well-formed recording row used by the parser witnesses. -/
def goodRow : Tr := ⟨some "A1",
  [⟨["date"], [TdChild.str " 2024-03-04 12:00 "]⟩,
   ⟨["rec"], [TdChild.spanEl ⟨["phonenumber"], "*200"⟩]⟩,
   ⟨["from"], [TdChild.spanEl ⟨["phonenumber"], "0712 345 678"⟩]⟩,
   ⟨["x"], []⟩,
   ⟨["to"], [TdChild.spanEl ⟨["phonenumber"], "0798 765 432"⟩]⟩]⟩

/-- A recording row with no `data-id` attribute. -/
def rowNoId : Tr :=
  ⟨none, [⟨["rec"], [TdChild.spanEl ⟨["phonenumber"], "*201"⟩]⟩]⟩

/-- A row with date and from cells present but rec and fifth cells missing. -/
def mixedRow : Tr := ⟨some "M1",
  [⟨["date"], [TdChild.str "2024-06-01"]⟩,
   ⟨["from"], [TdChild.spanEl ⟨["phonenumber"], "0712 000"⟩]⟩]⟩

/-- The record the loop appends for `mixedRow`. -/
def cM : Call := ⟨"M1", "2024-06-01", "0712000", "", "UnknownUser"⟩

/-- Witness for claim C2: a concrete well-formed document parses without
raising, and a concrete row missing only its rec and fifth cells gets the
empty string in exactly those fields. -/
theorem claim2_witness :
    isOkB (parse_html_calls [goodRow, mixedRow]) = true ∧
    cM.user_tag = userTagOf "" ∧ cM.to_number = "" :=
  ⟨claim2_amended_parse_tolerance.1 [goodRow, mixedRow] (by decide),
   (claim2_amended_parse_tolerance.2.1 mixedRow cM rfl).2.1 rfl,
   (claim2_amended_parse_tolerance.2.1 mixedRow cM rfl).2.2.2 rfl⟩

/-- Counterexample to claim C6 as stated: a row with the non-empty
identifier `A1` whose `from` cell lacks the phone-number sub-element makes
the parse raise, so no record at all is produced for that row. -/
theorem claim6_counterexample :
    parse_html_calls [⟨some "A1", [⟨["from"], [TdChild.str "0712 345"]⟩]⟩] =
      .error "AttributeError" := rfl

/-- Claim C6, amended: on every document in which each present
`rec`/`from`/fifth cell contains its phone-number sub-element, parsing
returns exactly the specification-side extraction: one record per row with
a non-empty identifier, carrying that row's id, trimmed date, stripped
from/to numbers and mapped owner tag, in document order; rows without an
identifier are absent. -/
theorem claim6_amended_parse_refinement :
    ∀ rows : List Tr, (∀ r ∈ rows, rowSpansOk r = true) →
      parse_html_calls rows = .ok (rows.filterMap specRecordOf) :=
  parse_html_calls_eq_spec

/-- Witness for claim C6: a concrete two-row document, the second row
without an identifier, parses to exactly the one spec-side record. -/
theorem claim6_witness :
    parse_html_calls [goodRow, rowNoId] =
      .ok ([goodRow, rowNoId].filterMap specRecordOf) :=
  claim6_amended_parse_refinement [goodRow, rowNoId] (by decide)

/-! ## Report-file claims -/

lemma foldl_appendCsvRow (rows : List (List String)) :
    ∀ init : Csv, rows.foldl appendCsvRow init = init ++ rows := by
  induction rows with
  | nil => intro init; simp
  | cons r rest ih =>
    intro init
    simp [List.foldl_cons, appendCsvRow, ih]

lemma runReport_eq (existing : Option Csv) (rows : List (List String)) :
    runReport existing rows = initCsvFile existing ++ rows :=
  foldl_appendCsvRow rows _

/-- Claim C8: before the first data row is written the report file already
exists holding exactly the header, even when zero rows follow; a run on a
fresh destination puts the header first, before all data rows, and the
header occurs exactly once; and on an already existing destination no
header is written at all. -/
theorem claim8_header_once :
    (∀ rows : List (List String),
      (reportStates none rows).head? = some [headerRow]) ∧
    (∀ rows : List (List String), runReport none rows = headerRow :: rows) ∧
    (∀ rows : List (List String), headerRow ∉ rows →
      (runReport none rows).count headerRow = 1) ∧
    (∀ (c : Csv) (rows : List (List String)),
      runReport (some c) rows = c ++ rows) := by
  have hnone : ∀ rows : List (List String),
      runReport none rows = headerRow :: rows := by
    intro rows; rw [runReport_eq]; rfl
  refine ⟨fun rows => rfl, hnone, ?_, fun c rows => by rw [runReport_eq]; rfl⟩
  intro rows h
  rw [hnone rows, List.count_cons_self, List.count_eq_zero.mpr h]

/-- Witness for claim C8 at a one-row report. -/
theorem claim8_witness :
    (runReport none [["2024-01-02 10:00", "0712345678", "0798765432", "ok"]]).count
      headerRow = 1 :=
  claim8_header_once.2.2.1 [["2024-01-02 10:00", "0712345678", "0798765432", "ok"]]
    (by decide)

/-- Claim C10: a run against an existing report file keeps all existing
content unchanged as a prefix and appends exactly the rows of the
processing loop after it, writing no header; hence running the same row
list twice against the same destination yields the header followed by the
rows twice, every data row occurring at least twice. -/
theorem claim10_append_frame_duplicates :
    (∀ (c : Csv) (net : String → Except String (List (List Nat)))
      (writeOk : Nat → Bool) (model eng : String → Except String String)
      (fs : FS) (calls : List Call),
      runReport (some c) (runCalls net writeOk model eng fs calls).rows =
        c ++ (runCalls net writeOk model eng fs calls).rows) ∧
    (∀ rows : List (List String),
      runReport (some (runReport none rows)) rows =
        headerRow :: (rows ++ rows)) ∧
    (∀ rows : List (List String), ∀ r ∈ rows,
      2 ≤ (runReport (some (runReport none rows)) rows).count r) := by
  have hsome : ∀ (c : Csv) (rows : List (List String)),
      runReport (some c) rows = c ++ rows := by
    intro c rows; rw [runReport_eq]; rfl
  have htwice : ∀ rows : List (List String),
      runReport (some (runReport none rows)) rows =
        headerRow :: (rows ++ rows) := by
    intro rows
    rw [hsome, runReport_eq]
    simp [initCsvFile]
  refine ⟨fun c _ _ _ _ _ _ => hsome c _, htwice, ?_⟩
  intro rows r hr
  rw [htwice rows]
  have hsub : (rows ++ rows).Sublist (headerRow :: (rows ++ rows)) :=
    List.sublist_cons_self _ _
  have hle := hsub.count_le r
  have h1 : 0 < rows.count r := List.count_pos_iff.mpr hr
  rw [List.count_append] at hle
  omega

/-- Witness for claim C10 at a one-row report run twice. -/
theorem claim10_witness :
    2 ≤ (runReport (some (runReport none [["d1", "f1", "t1", "s1"]]))
      [["d1", "f1", "t1", "s1"]]).count ["d1", "f1", "t1", "s1"] :=
  claim10_append_frame_duplicates.2.2 [["d1", "f1", "t1", "s1"]]
    ["d1", "f1", "t1", "s1"] (by decide)

/-! ## Orchestrator claims -/

/-- Concatenation of two trace segments of the processing loop. -/
def combineResults (a b : PipelineResult) : PipelineResult :=
  ⟨a.rows ++ b.rows, a.errors ++ b.errors,
   a.transcribeCalls ++ b.transcribeCalls,
   a.summarizeCalls ++ b.summarizeCalls,
   a.progressUpdates ++ b.progressUpdates, b.fs, a.netCalls + b.netCalls⟩

lemma runCallsAux_cons_ok (net : String → Except String (List (List Nat)))
    (writeOk : Nat → Bool) (model eng : String → Except String String)
    (i : Nat) (fs : FS) (c : Call) (rest : List Call) (p : String)
    (hd : (download_audio net writeOk fs c).result = .ok p) :
    runCallsAux net writeOk model eng i fs (c :: rest) =
      ⟨rowFor c (summarize_text eng (transcribe_audio model p)).1 ::
         (runCallsAux net writeOk model eng (i + 1)
           (download_audio net writeOk fs c).fs rest).rows,
       (runCallsAux net writeOk model eng (i + 1)
         (download_audio net writeOk fs c).fs rest).errors,
       p :: (runCallsAux net writeOk model eng (i + 1)
         (download_audio net writeOk fs c).fs rest).transcribeCalls,
       transcribe_audio model p :: (runCallsAux net writeOk model eng (i + 1)
         (download_audio net writeOk fs c).fs rest).summarizeCalls,
       (i + 1) :: (runCallsAux net writeOk model eng (i + 1)
         (download_audio net writeOk fs c).fs rest).progressUpdates,
       (runCallsAux net writeOk model eng (i + 1)
         (download_audio net writeOk fs c).fs rest).fs,
       (download_audio net writeOk fs c).netCalls +
         (runCallsAux net writeOk model eng (i + 1)
           (download_audio net writeOk fs c).fs rest).netCalls⟩ := by
  simp only [runCallsAux, hd]

lemma runCallsAux_cons_error (net : String → Except String (List (List Nat)))
    (writeOk : Nat → Bool) (model eng : String → Except String String)
    (i : Nat) (fs : FS) (c : Call) (rest : List Call) (e : String)
    (hd : (download_audio net writeOk fs c).result = .error e) :
    runCallsAux net writeOk model eng i fs (c :: rest) =
      ⟨(runCallsAux net writeOk model eng (i + 1)
         (download_audio net writeOk fs c).fs rest).rows,
       e :: (runCallsAux net writeOk model eng (i + 1)
         (download_audio net writeOk fs c).fs rest).errors,
       (runCallsAux net writeOk model eng (i + 1)
         (download_audio net writeOk fs c).fs rest).transcribeCalls,
       (runCallsAux net writeOk model eng (i + 1)
         (download_audio net writeOk fs c).fs rest).summarizeCalls,
       (i + 1) :: (runCallsAux net writeOk model eng (i + 1)
         (download_audio net writeOk fs c).fs rest).progressUpdates,
       (runCallsAux net writeOk model eng (i + 1)
         (download_audio net writeOk fs c).fs rest).fs,
       (download_audio net writeOk fs c).netCalls +
         (runCallsAux net writeOk model eng (i + 1)
           (download_audio net writeOk fs c).fs rest).netCalls⟩ := by
  simp only [runCallsAux, hd]

lemma runCallsAux_append (net : String → Except String (List (List Nat)))
    (writeOk : Nat → Bool) (model eng : String → Except String String) :
    ∀ (xs ys : List Call) (i : Nat) (fs : FS),
      runCallsAux net writeOk model eng i fs (xs ++ ys) =
        combineResults (runCallsAux net writeOk model eng i fs xs)
          (runCallsAux net writeOk model eng (i + xs.length)
            (runCallsAux net writeOk model eng i fs xs).fs ys) := by
  intro xs
  induction xs with
  | nil =>
    intro ys i fs
    simp [runCallsAux, emptyResult, combineResults]
  | cons c rest ih =>
    intro ys i fs
    have hidx : i + (c :: rest).length = (i + 1) + rest.length := by
      simp [List.length_cons]
      omega
    rw [List.cons_append]
    cases hd : (download_audio net writeOk fs c).result with
    | ok p =>
      rw [runCallsAux_cons_ok net writeOk model eng i fs c (rest ++ ys) p hd,
        runCallsAux_cons_ok net writeOk model eng i fs c rest p hd,
        ih ys (i + 1) (download_audio net writeOk fs c).fs, hidx]
      simp [combineResults, Nat.add_assoc]
    | error e =>
      rw [runCallsAux_cons_error net writeOk model eng i fs c (rest ++ ys) e hd,
        runCallsAux_cons_error net writeOk model eng i fs c rest e hd,
        ih ys (i + 1) (download_audio net writeOk fs c).fs, hidx]
      simp [combineResults, Nat.add_assoc]

lemma runCallsAux_counts (net : String → Except String (List (List Nat)))
    (writeOk : Nat → Bool) (model eng : String → Except String String) :
    ∀ (calls : List Call) (i : Nat) (fs : FS),
      (runCallsAux net writeOk model eng i fs calls).rows.length +
        (runCallsAux net writeOk model eng i fs calls).errors.length =
        calls.length ∧
      (runCallsAux net writeOk model eng i fs calls).transcribeCalls.length =
        (runCallsAux net writeOk model eng i fs calls).rows.length ∧
      (runCallsAux net writeOk model eng i fs calls).summarizeCalls.length =
        (runCallsAux net writeOk model eng i fs calls).rows.length ∧
      (runCallsAux net writeOk model eng i fs calls).progressUpdates =
        (List.range calls.length).map (fun k => i + k + 1) := by
  intro calls
  induction calls with
  | nil => intro i fs; exact ⟨rfl, rfl, rfl, rfl⟩
  | cons c rest ih =>
    intro i fs
    obtain ⟨ih1, ih2, ih3, ih4⟩ := ih (i + 1) (download_audio net writeOk fs c).fs
    have hrange : (List.range (rest.length + 1)).map (fun k => i + k + 1) =
        (i + 1) :: (List.range rest.length).map (fun k => i + 1 + k + 1) := by
      rw [List.range_succ_eq_map, List.map_cons, List.map_map]
      refine congrArg₂ _ (by omega) (List.map_congr_left ?_)
      intro a _
      simp [Function.comp]
      omega
    cases hd : (download_audio net writeOk fs c).result with
    | ok p =>
      rw [runCallsAux_cons_ok net writeOk model eng i fs c rest p hd]
      refine ⟨?_, ?_, ?_, ?_⟩ <;>
        simp [List.length_cons, ih1, ih2, ih3, ih4, hrange]
      omega
    | error e =>
      rw [runCallsAux_cons_error net writeOk model eng i fs c rest e hd]
      refine ⟨?_, ?_, ?_, ?_⟩ <;>
        simp [List.length_cons, ih1, ih2, ih3, ih4, hrange]
      omega

lemma runCallsAux_index_free (net : String → Except String (List (List Nat)))
    (writeOk : Nat → Bool) (model eng : String → Except String String) :
    ∀ (calls : List Call) (i : Nat) (fs : FS),
      (runCallsAux net writeOk model eng i fs calls).rows =
        (runCalls net writeOk model eng fs calls).rows ∧
      (runCallsAux net writeOk model eng i fs calls).errors =
        (runCalls net writeOk model eng fs calls).errors ∧
      (runCallsAux net writeOk model eng i fs calls).transcribeCalls =
        (runCalls net writeOk model eng fs calls).transcribeCalls ∧
      (runCallsAux net writeOk model eng i fs calls).summarizeCalls =
        (runCalls net writeOk model eng fs calls).summarizeCalls ∧
      (runCallsAux net writeOk model eng i fs calls).fs =
        (runCalls net writeOk model eng fs calls).fs ∧
      (runCallsAux net writeOk model eng i fs calls).netCalls =
        (runCalls net writeOk model eng fs calls).netCalls := by
  intro calls
  induction calls with
  | nil => intro i fs; exact ⟨rfl, rfl, rfl, rfl, rfl, rfl⟩
  | cons c rest ih =>
    intro i fs
    obtain ⟨ia1, ia2, ia3, ia4, ia5, ia6⟩ :=
      ih (i + 1) (download_audio net writeOk fs c).fs
    obtain ⟨ib1, ib2, ib3, ib4, ib5, ib6⟩ :=
      ih 1 (download_audio net writeOk fs c).fs
    unfold runCalls at *
    cases hd : (download_audio net writeOk fs c).result with
    | ok p =>
      rw [runCallsAux_cons_ok net writeOk model eng i fs c rest p hd,
        runCallsAux_cons_ok net writeOk model eng 0 fs c rest p hd]
      refine ⟨?_, ?_, ?_, ?_, ?_, ?_⟩ <;>
        simp [ia1, ia2, ia3, ia4, ia5, ia6, ib1, ib2, ib3, ib4, ib5, ib6]
    | error e =>
      rw [runCallsAux_cons_error net writeOk model eng i fs c rest e hd,
        runCallsAux_cons_error net writeOk model eng 0 fs c rest e hd]
      refine ⟨?_, ?_, ?_, ?_, ?_, ?_⟩ <;>
        simp [ia1, ia2, ia3, ia4, ia5, ia6, ib1, ib2, ib3, ib4, ib5, ib6]

/-- Claim C1: in a batch whose fetch stage raises for exactly the one record
`bad` — every record before and after it processes without a reported error,
while the download of `bad` raises `e` — the run still emits the report
rows of all other records, reports exactly one failure, passes exactly one
path to the transcriber and one transcript to the summarizer per other
record (so the failing record reaches neither), and advances the progress
counter once per record, the failing one included: the batch is never
aborted. -/
theorem claim1_single_fetch_failure
    (net : String → Except String (List (List Nat))) (writeOk : Nat → Bool)
    (model eng : String → Except String String) (fs : FS)
    (pre post : List Call) (bad : Call) (e : String) (fsPre fsBad : FS)
    (out : PipelineResult)
    (hfsPre : fsPre = (runCalls net writeOk model eng fs pre).fs)
    (hpre : (runCalls net writeOk model eng fs pre).errors = [])
    (hbad : (download_audio net writeOk fsPre bad).result = .error e)
    (hfsBad : fsBad = (download_audio net writeOk fsPre bad).fs)
    (hpost : (runCalls net writeOk model eng fsBad post).errors = [])
    (hout : out = runCalls net writeOk model eng fs (pre ++ bad :: post)) :
    out.errors = [e] ∧
    out.rows = (runCalls net writeOk model eng fs pre).rows ++
      (runCalls net writeOk model eng fsBad post).rows ∧
    out.rows.length = pre.length + post.length ∧
    out.transcribeCalls.length = pre.length + post.length ∧
    out.summarizeCalls.length = pre.length + post.length ∧
    out.progressUpdates =
      (List.range (pre.length + 1 + post.length)).map (fun k => k + 1) := by
  subst hfsPre hfsBad hout
  unfold runCalls at *
  rw [runCallsAux_append net writeOk model eng pre (bad :: post) 0 fs]
  set a := runCallsAux net writeOk model eng 0 fs pre with ha
  have hmid := runCallsAux_cons_error net writeOk model eng (0 + pre.length)
    a.fs bad post e hbad
  rw [hmid]
  set b := runCallsAux net writeOk model eng (0 + pre.length + 1)
    (download_audio net writeOk a.fs bad).fs post with hb
  obtain ⟨bf1, bf2, bf3, bf4, bf5, bf6⟩ := runCallsAux_index_free net writeOk
    model eng post (0 + pre.length + 1) (download_audio net writeOk a.fs bad).fs
  rw [← hb] at bf1 bf2 bf3 bf4
  obtain ⟨ac1, ac2, ac3, ac4⟩ := runCallsAux_counts net writeOk model eng pre 0 fs
  rw [← ha] at ac1 ac2 ac3 ac4
  obtain ⟨bc1, bc2, bc3, bc4⟩ := runCallsAux_counts net writeOk model eng post
    (0 + pre.length + 1) (download_audio net writeOk a.fs bad).fs
  rw [← hb] at bc1 bc2 bc3 bc4
  have hbe : b.errors = [] := by rw [bf2]; exact hpost
  have hae : a.errors = [] := hpre
  have har : a.rows.length = pre.length := by
    rw [hae] at ac1; simpa using ac1
  have hbr : b.rows.length = post.length := by
    rw [hbe] at bc1; simpa using bc1
  refine ⟨?_, ?_, ?_, ?_, ?_, ?_⟩
  · simp [combineResults, hae, hbe]
  · simp [combineResults, bf1, runCalls]
  · simp [combineResults, har, hbr]
  · simp [combineResults, ac2, bc2, har, hbr]
  · simp [combineResults, ac3, bc3, har, hbr]
  · have hsplit : (List.range pre.length).map (fun k => k + 1) ++
        ((pre.length + 1) ::
          (List.range post.length).map (fun k => pre.length + 1 + k + 1)) =
        (List.range (pre.length + 1 + post.length)).map (fun k => k + 1) := by
      rw [List.range_add, List.map_append, List.range_succ, List.map_append,
        List.map_map, List.append_assoc]
      simp [Function.comp]
    simp only [combineResults, ac4, bc4, Nat.zero_add]
    exact hsplit

def writeAllOk : Nat → Bool := fun _ => true

def callA1 : Call := ⟨"A1", "2024-05-01 09:00", "0711", "0722", "Vikki"⟩

def callA2 : Call := ⟨"A2", "2024-05-01 10:00", "0733", "0744", "Assistant"⟩

def callA3 : Call := ⟨"A3", "2024-05-01 11:00", "0755", "0766", "UnknownUser"⟩

/-- A network that rejects exactly the second record's download URL. -/
def netW : String → Except String (List (List Nat)) :=
  fun url => if url = urlFor callA2 then .error "404 Client Error"
    else .ok [[1, 2]]

def modelW : String → Except String String := fun _ => .ok " hello there "

def engW : String → Except String String := fun _ => .ok "short summary"

def runPreW : PipelineResult := runCalls netW writeAllOk modelW engW [] [callA1]

def fsBadW : FS := (download_audio netW writeAllOk runPreW.fs callA2).fs

def runPostW : PipelineResult :=
  runCalls netW writeAllOk modelW engW fsBadW [callA3]

def outW : PipelineResult :=
  runCalls netW writeAllOk modelW engW [] ([callA1] ++ callA2 :: [callA3])

/-- Witness for claim C1: a three-record batch whose middle record's fetch
gets a 404 — rows for the two others, one reported failure, three progress
updates. -/
theorem claim1_witness :
    outW.errors = ["404 Client Error"] ∧
    outW.rows = runPreW.rows ++ runPostW.rows ∧
    outW.rows.length = [callA1].length + [callA3].length ∧
    outW.transcribeCalls.length = [callA1].length + [callA3].length ∧
    outW.summarizeCalls.length = [callA1].length + [callA3].length ∧
    outW.progressUpdates =
      (List.range ([callA1].length + 1 + [callA3].length)).map
        (fun k => k + 1) :=
  claim1_single_fetch_failure netW writeAllOk modelW engW [] [callA1] [callA3]
    callA2 "404 Client Error" runPreW.fs fsBadW outW rfl rfl rfl rfl rfl rfl

end VivaTool
